import Mathlib

/-
Verification development for the ottomatic binding library.

The development shallowly embeds the Go source of `ottomatic.go`:
  - `gettag`                per-field tag parsing into an `ottoTag` directive
  - `RegisterToAliases`     the recursive binder (with `Register` / `RegisterTo` wrappers)
  - `DeepGet`               dotted-path lookup

The Otto scripting runtime is an external collaborator; it is modelled at the
boundary the source uses: a heap of objects (association lists of properties),
object 0 being the global namespace, with the four bridge operations the core
calls (create empty object bound to a name, set property, get property, test
for the undefined sentinel).
-/

set_option autoImplicit false

namespace Ottomatic

/-- Payload of host values that the binder's default branch passes straight to
the bridge: primitives, functions and other bridge-native data. -/
inductive Leaf where
  | str (s : String)
  | int (n : Int)
  | bool (b : Bool)
  | fn (id : Nat)
  deriving DecidableEq

/-- The reflect kinds rejected by the binder: `reflect.UnsafePointer`,
`reflect.Chan` and `reflect.Invalid`. -/
inductive UnsupKind where
  | unsafePtr
  | chanKind
  | invalid
  deriving DecidableEq

mutual
/-- A host (Go) value as seen by the binder through `reflect`:
a bridge-native leaf, a pointer (dereferenced once by `reflect.Indirect`),
a value of an unsupported kind, or a struct with a list of fields. -/
inductive HostValue where
  | leaf (p : Leaf)
  | ptr (v : HostValue)
  | unsupported (u : UnsupKind)
  | strct (fields : FieldList)
  deriving DecidableEq
/-- A struct's fields in declaration order; each carries its Go field name,
its raw tag string (empty when the tag is absent, as `Tag.Get` reports) and
its value. -/
inductive FieldList where
  | nil
  | cons (name tag : String) (val : HostValue) (rest : FieldList)
  deriving DecidableEq
end

/- ---------------------------------------------------------------------------
String helpers: models of the Go standard library functions the source uses
(`strings.Split` with a one-character separator, `strings.HasPrefix`,
`strings.TrimPrefix`), written over `String.data` so that they compute by
kernel reduction.
--------------------------------------------------------------------------- -/

/-- Split a character list at every occurrence of `sep`
(`strings.Split` semantics for a single-character separator). -/
def splitChars (sep : Char) : List Char → List (List Char)
  | [] => [[]]
  | c :: rest =>
    let r := splitChars sep rest
    if c = sep then [] :: r
    else
      match r with
      | [] => [[c]]
      | g :: gs => (c :: g) :: gs

/-- `strings.Split(s, sep)` for a one-character separator `sep`. -/
def goSplit (s : String) (sep : Char) : List String :=
  (splitChars sep s.data).map String.mk

/-- `strings.HasPrefix`. -/
def hasPrefixStr (s pre : String) : Bool :=
  pre.data.isPrefixOf s.data

/-- `strings.TrimPrefix`. -/
def trimPrefixStr (s pre : String) : String :=
  if hasPrefixStr s pre then String.mk (s.data.drop pre.data.length) else s

/- ---------------------------------------------------------------------------
Tag parsing (`gettag`).
--------------------------------------------------------------------------- -/

/-- The binding directive produced by `gettag`: the exposed name, the omit
flag, and the declared aliases. -/
structure ottoTag where
  name : String
  omitFlag : Bool := false   -- the source's `omit` field (`omit` is reserved in Lean)
  aliases : List String := []
  deriving DecidableEq

/-- `gettag(field)`: parse the field's raw `otto` tag, falling back to the
Go field name. Mirrors the source line by line: empty tag returns the field
name; first comma-token `-` means omit; otherwise the first token is the
name and the remaining tokens are scanned for the `alias=` prefix, all other
tokens being ignored. -/
def gettag (t : String) (fieldName : String) : ottoTag :=
  if t.data.length = 0 then { name := fieldName }
  else
    let data := goSplit t ','
    let n := data.headD ""
    if n = "-" then { name := fieldName, omitFlag := true }
    else
      let ot : ottoTag := { name := n }
      if data.length = 1 then ot
      else
        { ot with
          aliases :=
            (data.drop 1).foldl
              (fun as k =>
                if hasPrefixStr k "alias=" then as ++ [trimPrefixStr k "alias="] else as)
              [] }

/- ---------------------------------------------------------------------------
The scripting-side state (the Otto runtime at the boundary the core uses).
--------------------------------------------------------------------------- -/

/-- A scripting-side value as observed through the bridge: the undefined
sentinel, a reference to a scripting-side object, or the bridge's conversion
of a host value that was set directly (`obj.Set(n, v)` in the default
branch). `Value.Object()` performs no implicit conversion, so only `obj`
references can be traversed further. -/
inductive JSValue where
  | undefined
  | obj (id : Nat)
  | host (v : HostValue)
  deriving DecidableEq

/-- `Value.IsUndefined()`. -/
def JSValue.isUndefined : JSValue → Bool
  | .undefined => true
  | _ => false

/-- `Value.Object()`: the object behind the value, or the nil pointer when
the value is not an object (no implicit conversion). -/
def JSValue.asObject : JSValue → Option Nat
  | .obj id => some id
  | _ => none

/-- An object's property table. -/
abbrev Props := List (String × JSValue)

/-- Property lookup; a missing property reads as the undefined sentinel,
exactly how the bridge's `Get` reports absence. -/
def getAssoc : Props → String → JSValue
  | [], _ => .undefined
  | (k', v') :: rest, k => if k' = k then v' else getAssoc rest k

/-- Property update: overwrite an existing binding in place or append. -/
def setAssoc : Props → String → JSValue → Props
  | [], k, v => [(k, v)]
  | (k', v') :: rest, k, v =>
    if k' = k then (k, v) :: rest else (k', v') :: setAssoc rest k v

/-- The scripting environment's state: a heap of objects addressed by ids,
object 0 being the global namespace, and the next fresh object id. Setting a
property on the runtime itself (as `Register` does) sets a global, i.e. a
property of object 0. -/
structure OttoState where
  heap : Nat → Props
  nextId : Nat

/-- `otto.New()`: empty global object, no other objects. -/
def ottoNew : OttoState := { heap := fun _ => [], nextId := 1 }

/-- Bridge `Get` on object `id` (on the runtime itself when `id = 0`). -/
def getProp (st : OttoState) (id : Nat) (k : String) : JSValue :=
  getAssoc (st.heap id) k

/-- Bridge `Set` on object `id`. -/
def setProp (st : OttoState) (id : Nat) (k : String) (v : JSValue) : OttoState :=
  { st with heap := fun i => if i = id then setAssoc (st.heap id) k v else st.heap i }

/-- Set the same value under every name of a list, in order (the alias
fan-out loop of the binder). -/
def setAll (st : OttoState) (id : Nat) (names : List String) (v : JSValue) : OttoState :=
  names.foldl (fun s a => setProp s id a v) st

/-- Bridge create-object: models `o.Object(n + " = {}")`, which evaluates an
assignment script at the top-level scope — it allocates a fresh empty object,
assigns it to the GLOBAL variable `n`, and returns its handle. -/
def createObject (st : OttoState) (n : String) : OttoState × Nat :=
  let sid := st.nextId
  let st1 : OttoState :=
    { heap := fun i => if i = sid then [] else st.heap i, nextId := sid + 1 }
  (setProp st1 0 n (.obj sid), sid)

/- ---------------------------------------------------------------------------
The binder.
--------------------------------------------------------------------------- -/

/-- The binder's error: `ErrUnsupportedKind`. (The other error the source can
return, a bridge failure from object creation, cannot occur in the pure heap
model, whose create-object operation is total.) -/
inductive RegErr where
  | unsupportedKind
  deriving DecidableEq

mutual
/-- `RegisterToAliases(n, v, o, obj, aliases)`. `dest` is the destination
`ObjectSetter` (object id; 0 for the runtime itself). The result pairs the
final state with the returned error (state is threaded even on error, so the
source's behaviour of discarding a recursive call's error while keeping its
side effects is represented exactly). The match implements
`reflect.Indirect(reflect.ValueOf(v))` followed by the kind switch: one
pointer level is stripped before inspecting the kind, and a doubly-nested
pointer therefore lands in the default branch, exactly as in the source. -/
def RegisterToAliases (n : String) (v : HostValue) (dest : Nat)
    (aliases : List String) (st : OttoState) : OttoState × Option RegErr :=
  match v with
  | .unsupported _ | .ptr (.unsupported _) =>
    (st, some .unsupportedKind)
  | .strct fs | .ptr (.strct fs) =>
    let c := createObject st n
    let st2 := registerFields fs c.2 c.1
    let st3 := setProp st2 dest n (.obj c.2)
    (setAll st3 dest aliases (.obj c.2), none)
  | .leaf _ | .ptr (.leaf _) | .ptr (.ptr _) =>
    (setAll (setProp st dest n (.host v)) dest aliases (.host v), none)

/-- The struct-scanning loop: for each field in declaration order, parse its
tag; if not omitted, recursively bind it into the newly created object `sid`.
The recursive call's error value is discarded (the source does not check it),
but its state effects persist. -/
def registerFields (fs : FieldList) (sid : Nat) (st : OttoState) : OttoState :=
  match fs with
  | .nil => st
  | .cons fn ft fv rest =>
    let ot := gettag ft fn
    let st1 := if ot.omitFlag then st else (RegisterToAliases ot.name fv sid ot.aliases st).1
    registerFields rest sid st1
end

/-- `RegisterTo(n, v, o, obj)`: binds to the given object with no aliases. -/
def RegisterTo (n : String) (v : HostValue) (dest : Nat) (st : OttoState) :
    OttoState × Option RegErr :=
  RegisterToAliases n v dest [] st

/-- `Register(n, v, o)`: binds to the runtime's root namespace (the Otto
runtime is itself the `ObjectSetter`, i.e. object 0). -/
def Register (n : String) (v : HostValue) (st : OttoState) : OttoState × Option RegErr :=
  RegisterTo n v 0 st

/- ---------------------------------------------------------------------------
Dotted-path lookup (`DeepGet`).
--------------------------------------------------------------------------- -/

/-- The observable outcome of a `DeepGet` call: success with a value, the
typed `ErrUndefined(segment)` error, the generic structural error
(`errors.New("nil object")`), or a Go runtime panic (a nil-receiver method
call on a `*otto.Object`). -/
inductive GetOutcome where
  | ok (v : JSValue)
  | errUndefined (k : String)
  | errNilObject
  | crash
  deriving DecidableEq

/-- Models the Go test `obj == nil` after `obj = v.Object()`: the interface
variable `obj` then holds the dynamic type `*otto.Object`, so comparing it to
the untyped nil literal is always false, even when the pointer inside is nil
(Go's typed-nil-in-interface semantics). -/
def interfaceIsNil (o : Option Nat) : Bool :=
  match o with
  | _ => false

/-- The traversal loop of `DeepGet`: `cur` is the Go variable `obj` (the
current `ObjectGetter`); `none` represents an interface wrapping a nil
`*otto.Object`, on which calling `Get` dereferences the nil receiver and
panics. -/
def deepGetLoop (st : OttoState) : List String → Option Nat → JSValue → GetOutcome
  | [], _, v => .ok v
  | k :: rest, cur, _ =>
    match cur with
    | none => .crash
    | some id =>
      let v := getProp st id k
      if v.isUndefined then .errUndefined k
      else
        let nxt := v.asObject
        if interfaceIsNil nxt then .errNilObject
        else deepGetLoop st rest nxt v

/-- `DeepGet(key, o)`: split the key on dots and walk from the root getter
(an object id; 0 for the runtime itself). The initial `v` is the zero
`otto.Value`, i.e. undefined. -/
def DeepGet (key : String) (root : Nat) (st : OttoState) : GetOutcome :=
  deepGetLoop st (goSplit key '.') (some root) .undefined

/- ---------------------------------------------------------------------------
Derived notions used by the theorem statements.
--------------------------------------------------------------------------- -/

/-- `reflect.Indirect`: strip exactly one pointer level. -/
def indirect : HostValue → HostValue
  | .ptr w => w
  | v => v

/-- The value's kind (after `Indirect`) is one the binder rejects. -/
def isUnsupportedK : HostValue → Bool
  | .unsupported _ => true
  | _ => false

/-- The value's kind (after `Indirect`) is `reflect.Struct`. -/
def isStructK : HostValue → Bool
  | .strct _ => true
  | _ => false

/-- The names a field's registration writes on the parent object: the exposed
name followed by the aliases, or nothing when the field is omitted. -/
def fieldWrites (fn ft : String) : List String :=
  let ot := gettag ft fn
  if ot.omitFlag then [] else ot.name :: ot.aliases

/-- All names the struct-scanning loop writes on the parent object. -/
def allWrites : FieldList → List String
  | .nil => []
  | .cons fn ft _ rest => fieldWrites fn ft ++ allWrites rest

/-- Membership of a field (name, tag, value) in a field list. -/
def FieldList.mem (fn ft : String) (fv : HostValue) : FieldList → Prop
  | .nil => False
  | .cons gn gt gv rest => (gn = fn ∧ gt = ft ∧ gv = fv) ∨ FieldList.mem fn ft fv rest

mutual
/-- The working names of every struct node a binding call walks: each such
name is assigned in the scripting environment's global namespace by the
bridge's create-object call. -/
def structNames (n : String) (v : HostValue) : List String :=
  match v with
  | .strct fs | .ptr (.strct fs) => n :: fieldStructNames fs
  | _ => []

def fieldStructNames : FieldList → List String
  | .nil => []
  | .cons fn ft fv rest =>
    let ot := gettag ft fn
    (if ot.omitFlag then [] else structNames ot.name fv) ++ fieldStructNames rest
end

/-- The recognizer applied to each tag token after the first: an `alias=NAME`
token contributes `NAME`, every other token contributes nothing. -/
def aliasDirective (k : String) : Option String :=
  if hasPrefixStr k "alias=" then some (trimPrefixStr k "alias=") else none

/-- The chain of objects reached by successively fetching the given segments,
each fetched value being an object reference. -/
def resolveObjs (st : OttoState) : Nat → List String → Option Nat
  | id, [] => some id
  | id, k :: rest =>
    match (getProp st id k).asObject with
    | some id2 => resolveObjs st id2 rest
    | none => none

/- ---------------------------------------------------------------------------
Concrete inputs used by counterexamples, illustrations and witnesses.
--------------------------------------------------------------------------- -/

/-- A struct whose omitted field `A` (tag `-`) has its host name reused as
the exposed name of the sibling field `B` (tag `A`). -/
def c1example : HostValue :=
  .strct (.cons "A" "-" (.leaf (.int 1))
    (.cons "B" "A" (.leaf (.int 2)) .nil))

/-- A well-behaved struct: one tagged field `Name` (tag `name`) and one
omitted field `SkipMe` (tag `-`). -/
def c1wstruct : HostValue :=
  .strct (.cons "Name" "name" (.leaf (.str "astro"))
    (.cons "SkipMe" "-" (.leaf (.bool true)) .nil))

/-- A struct whose middle field `B` has an unsupported kind (a channel),
between two supported siblings `A` and `C`. -/
def c2example : HostValue :=
  .strct (.cons "A" "" (.leaf (.int 1))
    (.cons "B" "" (.unsupported .chanKind)
      (.cons "C" "" (.leaf (.int 2)) .nil)))

/-- A runtime state with global `a` referring to an object whose property
`b` holds the primitive `5`. -/
def c3state : OttoState :=
  { heap := fun i =>
      if i = 0 then [("a", .obj 1)]
      else if i = 1 then [("b", .host (.leaf (.int 5)))]
      else [],
    nextId := 2 }

/-- Same shape as `c3state`, for the final-segment claim. -/
def c4state : OttoState :=
  { heap := fun i =>
      if i = 0 then [("a", .obj 1)]
      else if i = 1 then [("b", .host (.leaf (.int 5)))]
      else [],
    nextId := 2 }

/-- A runtime state with one (empty) non-global object, id 1. -/
def c8state : OttoState := { heap := fun _ => [], nextId := 2 }

/-- A struct with a single struct-valued field `Inner` exposed as `inner`. -/
def c9example : HostValue := .strct (.cons "Inner" "inner" (.strct .nil) .nil)

/-- A runtime state with one (empty) non-global object, id 1. -/
def c9state : OttoState := { heap := fun _ => [], nextId := 2 }

/- ---------------------------------------------------------------------------
Basic lemmas about the scripting-state operations.
--------------------------------------------------------------------------- -/

@[simp] lemma getAssoc_setAssoc_self (ps : Props) (k : String) (v : JSValue) :
    getAssoc (setAssoc ps k v) k = v := by
  induction ps with
  | nil => simp [setAssoc, getAssoc]
  | cons hd tl ih =>
    obtain ⟨k', v'⟩ := hd
    by_cases h : k' = k <;> simp [setAssoc, getAssoc, h, ih]

lemma getAssoc_setAssoc_ne (ps : Props) {k k' : String} (v : JSValue) (h : k' ≠ k) :
    getAssoc (setAssoc ps k v) k' = getAssoc ps k' := by
  induction ps with
  | nil => simp [setAssoc, getAssoc, Ne.symm h]
  | cons hd tl ih =>
    obtain ⟨k₀, v₀⟩ := hd
    by_cases h0 : k₀ = k
    · subst h0; simp [setAssoc, getAssoc, Ne.symm h]
    · simp [setAssoc, getAssoc, h0, ih]

@[simp] lemma setProp_nextId (st : OttoState) (id : Nat) (k : String) (v : JSValue) :
    (setProp st id k v).nextId = st.nextId := rfl

lemma setAll_nil (st : OttoState) (id : Nat) (v : JSValue) : setAll st id [] v = st := rfl

lemma setAll_cons (st : OttoState) (id : Nat) (a : String) (names : List String) (v : JSValue) :
    setAll st id (a :: names) v = setAll (setProp st id a v) id names v := rfl

@[simp] lemma setAll_nextId (st : OttoState) (id : Nat) (names : List String) (v : JSValue) :
    (setAll st id names v).nextId = st.nextId := by
  induction names generalizing st with
  | nil => rfl
  | cons a rest ih => rw [setAll_cons, ih, setProp_nextId]

@[simp] lemma getProp_setProp_self (st : OttoState) (id : Nat) (k : String) (v : JSValue) :
    getProp (setProp st id k v) id k = v := by
  simp [getProp, setProp]

lemma getProp_setProp_ne_obj (st : OttoState) {i id : Nat} (k k' : String) (v : JSValue)
    (h : i ≠ id) : getProp (setProp st id k v) i k' = getProp st i k' := by
  simp [getProp, setProp, h]

lemma getProp_setProp_ne_key (st : OttoState) (i id : Nat) {k k' : String} (v : JSValue)
    (h : k' ≠ k) : getProp (setProp st id k v) i k' = getProp st i k' := by
  by_cases hobj : i = id
  · subst hobj; simp [getProp, setProp, getAssoc_setAssoc_ne _ _ h]
  · simp [getProp, setProp, hobj]

lemma getProp_setAll_ne_obj (st : OttoState) {i id : Nat} (names : List String)
    (k : String) (v : JSValue) (h : i ≠ id) :
    getProp (setAll st id names v) i k = getProp st i k := by
  induction names generalizing st with
  | nil => rfl
  | cons a rest ih =>
    rw [setAll_cons, ih, getProp_setProp_ne_obj _ _ _ _ h]

lemma getProp_setAll_not_mem (st : OttoState) (id : Nat) {names : List String}
    {k : String} (v : JSValue) (h : k ∉ names) :
    getProp (setAll st id names v) id k = getProp st id k := by
  induction names generalizing st with
  | nil => rfl
  | cons a rest ih =>
    rw [setAll_cons, ih _ (fun hm => h (List.mem_cons_of_mem _ hm)),
      getProp_setProp_ne_key _ _ _ _ (fun he => h (by rw [he]; exact List.mem_cons_self _ _))]

lemma getProp_setAll_mem (st : OttoState) (id : Nat) {names : List String}
    {k : String} (v : JSValue) (h : k ∈ names) :
    getProp (setAll st id names v) id k = v := by
  induction names generalizing st with
  | nil => cases h
  | cons a rest ih =>
    rw [setAll_cons]
    by_cases hr : k ∈ rest
    · exact ih _ hr
    · have hk : k = a := by
        rcases List.mem_cons.mp h with h' | h'
        · exact h'
        · exact absurd h' hr
      subst hk
      rw [getProp_setAll_not_mem _ _ _ hr]
      exact getProp_setProp_self _ _ _ _

@[simp] lemma createObject_nextId (st : OttoState) (n : String) :
    (createObject st n).1.nextId = st.nextId + 1 := rfl

@[simp] lemma createObject_sid (st : OttoState) (n : String) :
    (createObject st n).2 = st.nextId := rfl

lemma getProp_createObject_other (st : OttoState) (n : String) {id : Nat} (k : String)
    (h0 : id ≠ 0) (hlt : id < st.nextId) :
    getProp (createObject st n).1 id k = getProp st id k := by
  have hne : id ≠ st.nextId := Nat.ne_of_lt hlt
  simp [createObject, getProp, setProp, h0, hne]

lemma getProp_createObject_fresh (st : OttoState) (n : String) (k : String)
    (hpos : 0 < st.nextId) :
    getProp (createObject st n).1 st.nextId k = .undefined := by
  have h0 : st.nextId ≠ 0 := Nat.pos_iff_ne_zero.mp hpos
  simp [createObject, getProp, setProp, h0, getAssoc]

lemma getProp_createObject_global (st : OttoState) (n k : String) (hk : k ≠ n)
    (hpos : 0 < st.nextId) :
    getProp (createObject st n).1 0 k = getProp st 0 k := by
  have h0 : (0 : Nat) ≠ st.nextId := fun h => absurd h.symm (Nat.pos_iff_ne_zero.mp hpos)
  simp [createObject, getProp, setProp, getAssoc_setAssoc_ne _ _ hk, h0]

lemma getProp_createObject_global_self (st : OttoState) (n : String) (hpos : 0 < st.nextId) :
    getProp (createObject st n).1 0 n = .obj st.nextId := by
  have h0 : (0 : Nat) ≠ st.nextId := fun h => absurd h.symm (Nat.pos_iff_ne_zero.mp hpos)
  simp [createObject, getProp, setProp, h0]

/- ---------------------------------------------------------------------------
Monotonicity: a binding call never lowers the next fresh object id.
--------------------------------------------------------------------------- -/

/-- Plain induction principle for `FieldList` alone (the mutual recursor with
a trivial motive on `HostValue`). -/
lemma FieldList.inductionOn (motive : FieldList → Prop) (hnil : motive .nil)
    (hcons : ∀ (fn ft : String) (fv : HostValue) (rest : FieldList),
      motive rest → motive (.cons fn ft fv rest)) (fs : FieldList) :
    motive fs :=
  @FieldList.rec (fun _ => True) motive
    (fun _ => trivial) (fun _ _ => trivial) (fun _ => trivial) (fun _ _ => trivial)
    hnil (fun fn ft fv rest _ ih => hcons fn ft fv rest ih) fs

lemma rta_mono (n : String) (v : HostValue) (dest : Nat) (al : List String) (st : OttoState) :
    st.nextId ≤ ((RegisterToAliases n v dest al st).1).nextId := by
  refine RegisterToAliases.induct
    (fun n v dest al st => st.nextId ≤ ((RegisterToAliases n v dest al st).1).nextId)
    (fun fs sid st => st.nextId ≤ (registerFields fs sid st).nextId)
    ?_ ?_ ?_ ?_ ?_ ?_ ?_ ?_ ?_ n v dest al st
  · intro n dest al st u; simp [RegisterToAliases]
  · intro n dest al st u; simp [RegisterToAliases]
  · intro n dest al st fs
    dsimp only
    intro ih
    simp only [RegisterToAliases, setAll_nextId, setProp_nextId]
    simp only [createObject_nextId] at ih
    omega
  · intro n dest al st fs
    dsimp only
    intro ih
    simp only [RegisterToAliases, setAll_nextId, setProp_nextId]
    simp only [createObject_nextId] at ih
    omega
  · intro n dest al st p; simp [RegisterToAliases]
  · intro n dest al st p; simp [RegisterToAliases]
  · intro n dest al st v; simp [RegisterToAliases]
  · intro sid st; simp [registerFields]
  · intro sid st fn ft fv rest
    dsimp only
    intro ih1 ih2
    simp only [registerFields]
    by_cases ho : (gettag ft fn).omitFlag = true
    · simp only [ho, if_true] at ih2 ⊢; exact ih2
    · simp only [ho, if_false, Bool.false_eq_true] at ih2 ⊢
      exact le_trans ih1 ih2

lemma fields_mono (fs : FieldList) (sid : Nat) (st : OttoState) :
    st.nextId ≤ (registerFields fs sid st).nextId := by
  refine FieldList.inductionOn
    (fun fs => ∀ st : OttoState, st.nextId ≤ (registerFields fs sid st).nextId)
    ?_ ?_ fs st
  · intro st; simp [registerFields]
  · intro fn ft fv rest ih st
    simp only [registerFields]
    by_cases ho : (gettag ft fn).omitFlag = true
    · simp only [ho, if_true]; exact ih _
    · simp only [ho, if_false, Bool.false_eq_true]
      exact le_trans (rta_mono _ _ _ _ _) (ih _)

/- ---------------------------------------------------------------------------
Frame lemmas: what a binding call can and cannot touch.
--------------------------------------------------------------------------- -/

/-- A binding call leaves every already-allocated object other than the
global object and its own destination untouched. -/
lemma rta_otherFrame (n : String) (v : HostValue) (dest : Nat) (al : List String)
    (st : OttoState) :
    ∀ id, id ≠ 0 → id ≠ dest → id < st.nextId →
      ∀ k, getProp ((RegisterToAliases n v dest al st).1) id k = getProp st id k := by
  refine RegisterToAliases.induct
    (fun n v dest al st => ∀ id, id ≠ 0 → id ≠ dest → id < st.nextId →
      ∀ k, getProp ((RegisterToAliases n v dest al st).1) id k = getProp st id k)
    (fun fs sid st => ∀ id, id ≠ 0 → id ≠ sid → id < st.nextId →
      ∀ k, getProp (registerFields fs sid st) id k = getProp st id k)
    ?_ ?_ ?_ ?_ ?_ ?_ ?_ ?_ ?_ n v dest al st
  · intro n dest al st u id h0 hd hlt k; simp [RegisterToAliases]
  · intro n dest al st u id h0 hd hlt k; simp [RegisterToAliases]
  · intro n dest al st fs
    dsimp only
    intro ih id h0 hd hlt k
    simp only [RegisterToAliases]
    rw [getProp_setAll_ne_obj _ _ _ _ hd, getProp_setProp_ne_obj _ _ _ _ hd,
      ih id h0 (Nat.ne_of_lt hlt) (by simp; omega) k,
      getProp_createObject_other _ _ _ h0 hlt]
  · intro n dest al st fs
    dsimp only
    intro ih id h0 hd hlt k
    simp only [RegisterToAliases]
    rw [getProp_setAll_ne_obj _ _ _ _ hd, getProp_setProp_ne_obj _ _ _ _ hd,
      ih id h0 (Nat.ne_of_lt hlt) (by simp; omega) k,
      getProp_createObject_other _ _ _ h0 hlt]
  · intro n dest al st p id h0 hd hlt k
    simp only [RegisterToAliases]
    rw [getProp_setAll_ne_obj _ _ _ _ hd, getProp_setProp_ne_obj _ _ _ _ hd]
  · intro n dest al st p id h0 hd hlt k
    simp only [RegisterToAliases]
    rw [getProp_setAll_ne_obj _ _ _ _ hd, getProp_setProp_ne_obj _ _ _ _ hd]
  · intro n dest al st v id h0 hd hlt k
    simp only [RegisterToAliases]
    rw [getProp_setAll_ne_obj _ _ _ _ hd, getProp_setProp_ne_obj _ _ _ _ hd]
  · intro sid st id h0 hd hlt k; simp [registerFields]
  · intro sid st fn ft fv rest
    dsimp only
    intro ih1 ih2 id h0 hd hlt k
    simp only [registerFields]
    by_cases ho : (gettag ft fn).omitFlag = true
    · simp only [ho, if_true] at ih2 ⊢
      exact ih2 id h0 hd hlt k
    · simp only [ho, if_false, Bool.false_eq_true] at ih2 ⊢
      rw [ih2 id h0 hd (lt_of_lt_of_le hlt (rta_mono _ _ _ _ _)) k,
        ih1 id h0 hd hlt k]

/-- The struct-scanning loop leaves every already-allocated object other than
the global object and the object being filled untouched. -/
lemma fields_otherFrame (fs : FieldList) (sid : Nat) (st : OttoState) :
    ∀ id, id ≠ 0 → id ≠ sid → id < st.nextId →
      ∀ k, getProp (registerFields fs sid st) id k = getProp st id k := by
  refine FieldList.inductionOn
    (fun fs => ∀ st : OttoState, ∀ id, id ≠ 0 → id ≠ sid → id < st.nextId →
      ∀ k, getProp (registerFields fs sid st) id k = getProp st id k)
    ?_ ?_ fs st
  · intro st id h0 hd hlt k; simp [registerFields]
  · intro fn ft fv rest ih st id h0 hd hlt k
    simp only [registerFields]
    by_cases ho : (gettag ft fn).omitFlag = true
    · simp only [ho, if_true]
      exact ih st id h0 hd hlt k
    · simp only [ho, if_false, Bool.false_eq_true]
      rw [ih _ id h0 hd (lt_of_lt_of_le hlt (rta_mono _ _ _ _ _)) k,
        rta_otherFrame _ _ _ _ _ id h0 hd hlt k]

/-- A binding call touches its (non-global) destination object only at the
primary name and the aliases. -/
lemma rta_destFrame (n : String) (v : HostValue) (dest : Nat) (al : List String)
    (st : OttoState) (k : String) (h0 : dest ≠ 0) (hlt : dest < st.nextId)
    (hk : k ≠ n) (hka : k ∉ al) :
    getProp ((RegisterToAliases n v dest al st).1) dest k = getProp st dest k := by
  rcases v with p | w | u | fs
  case leaf =>
    simp only [RegisterToAliases]
    rw [getProp_setAll_not_mem _ _ _ hka, getProp_setProp_ne_key _ _ _ _ hk]
  case unsupported => simp [RegisterToAliases]
  case strct =>
    simp only [RegisterToAliases]
    rw [getProp_setAll_not_mem _ _ _ hka, getProp_setProp_ne_key _ _ _ _ hk]
    simp only [createObject_sid]
    rw [fields_otherFrame _ _ _ dest h0 (Nat.ne_of_lt hlt)
        (by simp only [createObject_nextId]; omega) k,
      getProp_createObject_other _ _ _ h0 hlt]
  case ptr =>
    rcases w with p | w' | u | fs
    case leaf =>
      simp only [RegisterToAliases]
      rw [getProp_setAll_not_mem _ _ _ hka, getProp_setProp_ne_key _ _ _ _ hk]
    case ptr =>
      simp only [RegisterToAliases]
      rw [getProp_setAll_not_mem _ _ _ hka, getProp_setProp_ne_key _ _ _ _ hk]
    case unsupported => simp [RegisterToAliases]
    case strct =>
      simp only [RegisterToAliases]
      rw [getProp_setAll_not_mem _ _ _ hka, getProp_setProp_ne_key _ _ _ _ hk]
      simp only [createObject_sid]
      rw [fields_otherFrame _ _ _ dest h0 (Nat.ne_of_lt hlt)
          (by simp only [createObject_nextId]; omega) k,
        getProp_createObject_other _ _ _ h0 hlt]

/-- The struct-scanning loop touches the (non-global) object it fills only at
the names the fields' directives write. -/
lemma fields_destFrame (fs : FieldList) (sid : Nat) (st : OttoState) (k : String)
    (h0 : sid ≠ 0) (hlt : sid < st.nextId) (hk : k ∉ allWrites fs) :
    getProp (registerFields fs sid st) sid k = getProp st sid k := by
  refine FieldList.inductionOn
    (fun fs => ∀ st : OttoState, sid < st.nextId → k ∉ allWrites fs →
      getProp (registerFields fs sid st) sid k = getProp st sid k)
    ?_ ?_ fs st hlt hk
  · intro st hlt hk; simp [registerFields]
  · intro fn ft fv rest ih st hlt hk
    simp only [allWrites, List.mem_append, not_or] at hk
    simp only [registerFields]
    by_cases ho : (gettag ft fn).omitFlag = true
    · simp only [ho, if_true]
      exact ih st hlt hk.2
    · simp only [ho, if_false, Bool.false_eq_true]
      have hw : k ∉ fieldWrites fn ft := hk.1
      simp only [fieldWrites, ho, if_false, Bool.false_eq_true, List.mem_cons, not_or] at hw
      rw [ih _ (lt_of_lt_of_le hlt (rta_mono _ _ _ _ _)) hk.2,
        rta_destFrame _ _ _ _ _ _ h0 hlt hw.1 hw.2]

/- ---------------------------------------------------------------------------
What a binding call writes at its destination.
--------------------------------------------------------------------------- -/

lemma getProp_set_then_all (st : OttoState) (dest : Nat) (n : String)
    (al : List String) (w : JSValue) :
    getProp (setAll (setProp st dest n w) dest al w) dest n = w ∧
    ∀ a ∈ al, getProp (setAll (setProp st dest n w) dest al w) dest a = w := by
  constructor
  · by_cases h : n ∈ al
    · exact getProp_setAll_mem _ _ _ h
    · rw [getProp_setAll_not_mem _ _ _ h]; exact getProp_setProp_self _ _ _ _
  · intro a ha; exact getProp_setAll_mem _ _ _ ha

/-- A successful binding call sets the destination's property under the
primary name and under every alias to one and the same value: the freshly
created object for a struct kind, the bridge conversion of `v` itself for
every other supported kind. -/
lemma rta_set_values (n : String) (v : HostValue) (dest : Nat) (al : List String)
    (st : OttoState) (hk : isUnsupportedK (indirect v) = false) :
    ∃ w, getProp ((RegisterToAliases n v dest al st).1) dest n = w ∧
      (∀ a ∈ al, getProp ((RegisterToAliases n v dest al st).1) dest a = w) ∧
      (isStructK (indirect v) = true → w = .obj st.nextId) ∧
      (isStructK (indirect v) = false → w = .host v) := by
  rcases v with p | w' | u | fs
  case leaf =>
    refine ⟨.host (.leaf p), ?_, ?_, ?_, fun _ => rfl⟩
    · exact (getProp_set_then_all _ _ _ _ _).1
    · exact (getProp_set_then_all _ _ _ _ _).2
    · intro h; simp [indirect, isStructK] at h
  case unsupported => simp [indirect, isUnsupportedK] at hk
  case strct =>
    refine ⟨.obj st.nextId, ?_, ?_, fun _ => rfl, ?_⟩
    · simpa only [RegisterToAliases, createObject_sid] using
        (getProp_set_then_all _ dest n al (.obj st.nextId)).1
    · simpa only [RegisterToAliases, createObject_sid] using
        (getProp_set_then_all _ dest n al (.obj st.nextId)).2
    · intro h; simp [indirect, isStructK] at h
  case ptr =>
    rcases w' with p | w'' | u | fs
    case leaf =>
      refine ⟨.host (.ptr (.leaf p)), ?_, ?_, ?_, fun _ => rfl⟩
      · exact (getProp_set_then_all _ _ _ _ _).1
      · exact (getProp_set_then_all _ _ _ _ _).2
      · intro h; simp [indirect, isStructK] at h
    case ptr =>
      refine ⟨.host (.ptr (.ptr w'')), ?_, ?_, ?_, fun _ => rfl⟩
      · exact (getProp_set_then_all _ _ _ _ _).1
      · exact (getProp_set_then_all _ _ _ _ _).2
      · intro h; simp [indirect, isStructK] at h
    case unsupported => simp [indirect, isUnsupportedK] at hk
    case strct =>
      refine ⟨.obj st.nextId, ?_, ?_, fun _ => rfl, ?_⟩
      · simpa only [RegisterToAliases, createObject_sid] using
          (getProp_set_then_all _ dest n al (.obj st.nextId)).1
      · simpa only [RegisterToAliases, createObject_sid] using
          (getProp_set_then_all _ dest n al (.obj st.nextId)).2
      · intro h; simp [indirect, isStructK] at h

/-- After the struct-scanning loop, a non-omitted supported field whose
written names do not collide with any other field's writes can be read back
on the filled object under its exposed name: it holds the field's bound
representation. -/
lemma fields_get (fs : FieldList) (sid : Nat) (st : OttoState)
    (fn ft : String) (fv : HostValue)
    (h0 : sid ≠ 0) (hlt : sid < st.nextId)
    (hmem : FieldList.mem fn ft fv fs)
    (hnodup : (allWrites fs).Nodup)
    (ho : (gettag ft fn).omitFlag = false)
    (hsupp : isUnsupportedK (indirect fv) = false) :
    ∃ w, getProp (registerFields fs sid st) sid (gettag ft fn).name = w ∧
      (isStructK (indirect fv) = true → ∃ i, w = .obj i) ∧
      (isStructK (indirect fv) = false → w = .host fv) := by
  refine FieldList.inductionOn
    (fun fs => ∀ st : OttoState, sid < st.nextId → FieldList.mem fn ft fv fs →
      (allWrites fs).Nodup →
      ∃ w, getProp (registerFields fs sid st) sid (gettag ft fn).name = w ∧
        (isStructK (indirect fv) = true → ∃ i, w = .obj i) ∧
        (isStructK (indirect fv) = false → w = .host fv))
    ?_ ?_ fs st hlt hmem hnodup
  · intro st hlt hmem _; cases hmem
  · intro gn gt gv rest ih st hlt hmem hnodup
    rcases hmem with ⟨hgn, hgt, hgv⟩ | hmem
    · rw [hgn, hgt, hgv] at hnodup ⊢
      rw [allWrites, List.nodup_append] at hnodup
      simp only [registerFields, ho, if_false, Bool.false_eq_true]
      obtain ⟨w, hw1, _, hwS, hwL⟩ :=
        rta_set_values (gettag ft fn).name fv sid (gettag ft fn).aliases st hsupp
      have hmem1 : (gettag ft fn).name ∈ fieldWrites fn ft := by
        simp [fieldWrites, ho]
      have hnm : (gettag ft fn).name ∉ allWrites rest :=
        fun hc => hnodup.2.2 hmem1 hc
      refine ⟨w, ?_, fun hS => ⟨st.nextId, hwS hS⟩, hwL⟩
      rw [fields_destFrame _ _ _ _ h0
        (lt_of_lt_of_le hlt (rta_mono _ _ _ _ _)) hnm]
      exact hw1
    · rw [allWrites, List.nodup_append] at hnodup
      simp only [registerFields]
      by_cases hgo : (gettag gt gn).omitFlag = true
      · simp only [hgo, if_true]
        exact ih st hlt hmem hnodup.2.1
      · simp only [hgo, if_false, Bool.false_eq_true]
        exact ih _ (lt_of_lt_of_le hlt (rta_mono _ _ _ _ _)) hmem hnodup.2.1

/-- A binding call with an unsupported kind is an error and a no-op. -/
lemma rta_unsupported (n : String) (v : HostValue) (dest : Nat) (al : List String)
    (st : OttoState) (hk : isUnsupportedK (indirect v) = true) :
    RegisterToAliases n v dest al st = (st, some .unsupportedKind) := by
  rcases v with p | w | u | fs
  case leaf => simp [indirect, isUnsupportedK] at hk
  case unsupported => simp [RegisterToAliases]
  case strct => simp [indirect, isUnsupportedK] at hk
  case ptr =>
    rcases w with p | w' | u | fs
    case leaf => simp [indirect, isUnsupportedK] at hk
    case ptr => simp [indirect, isUnsupportedK] at hk
    case unsupported => simp [RegisterToAliases]
    case strct => simp [indirect, isUnsupportedK] at hk

/-- The error a binding call returns is determined by the (indirected) kind:
`ErrUnsupportedKind` for the rejected kinds, success for everything else — in
particular the struct branch always reports success, whatever happened while
binding the fields. -/
lemma rta_err (n : String) (v : HostValue) (dest : Nat) (al : List String)
    (st : OttoState) :
    (RegisterToAliases n v dest al st).2 =
      if isUnsupportedK (indirect v) = true then some .unsupportedKind else none := by
  rcases v with p | w | u | fs
  case leaf => simp [RegisterToAliases, indirect, isUnsupportedK]
  case unsupported => simp [RegisterToAliases, indirect, isUnsupportedK]
  case strct => simp [RegisterToAliases, indirect, isUnsupportedK]
  case ptr =>
    rcases w with p | w' | u | fs
    case leaf => simp [RegisterToAliases, indirect, isUnsupportedK]
    case ptr => simp [RegisterToAliases, indirect, isUnsupportedK]
    case unsupported => simp [RegisterToAliases, indirect, isUnsupportedK]
    case strct => simp [RegisterToAliases, indirect, isUnsupportedK]

/-- Global-namespace frame: besides the properties a call with `dest = 0`
sets on the global object itself, the only global variables a binding call
creates or overwrites are the working names of the struct nodes it walks
(each assigned by the bridge's create-object script). -/
lemma rta_globalFrame (n : String) (v : HostValue) (dest : Nat) (al : List String)
    (st : OttoState) :
    ∀ k, 0 < st.nextId → k ∉ structNames n v → (dest = 0 → (k ≠ n ∧ k ∉ al)) →
      getProp ((RegisterToAliases n v dest al st).1) 0 k = getProp st 0 k := by
  refine RegisterToAliases.induct
    (fun n v dest al st => ∀ k, 0 < st.nextId → k ∉ structNames n v →
      (dest = 0 → (k ≠ n ∧ k ∉ al)) →
      getProp ((RegisterToAliases n v dest al st).1) 0 k = getProp st 0 k)
    (fun fs sid st => ∀ k, 0 < st.nextId → sid ≠ 0 → k ∉ fieldStructNames fs →
      getProp (registerFields fs sid st) 0 k = getProp st 0 k)
    ?_ ?_ ?_ ?_ ?_ ?_ ?_ ?_ ?_ n v dest al st
  · intro n dest al st u k hp hs hd; simp [RegisterToAliases]
  · intro n dest al st u k hp hs hd; simp [RegisterToAliases]
  · intro n dest al st fs
    dsimp only
    intro ih k hp hs hd
    simp only [structNames, List.mem_cons, not_or] at hs
    simp only [RegisterToAliases, createObject_sid]
    have hstep : getProp (registerFields fs st.nextId (createObject st n).1) 0 k
        = getProp st 0 k := by
      simp only [createObject_sid, createObject_nextId] at ih
      rw [ih k (by omega) (Nat.pos_iff_ne_zero.mp hp) hs.2,
        getProp_createObject_global _ _ _ hs.1 hp]
    by_cases hz : dest = 0
    · subst hz
      rw [getProp_setAll_not_mem _ _ _ (hd rfl).2,
        getProp_setProp_ne_key _ _ _ _ (hd rfl).1, hstep]
    · rw [getProp_setAll_ne_obj _ _ _ _ (fun e => hz e.symm),
        getProp_setProp_ne_obj _ _ _ _ (fun e => hz e.symm), hstep]
  · intro n dest al st fs
    dsimp only
    intro ih k hp hs hd
    simp only [structNames, List.mem_cons, not_or] at hs
    simp only [RegisterToAliases, createObject_sid]
    have hstep : getProp (registerFields fs st.nextId (createObject st n).1) 0 k
        = getProp st 0 k := by
      simp only [createObject_sid, createObject_nextId] at ih
      rw [ih k (by omega) (Nat.pos_iff_ne_zero.mp hp) hs.2,
        getProp_createObject_global _ _ _ hs.1 hp]
    by_cases hz : dest = 0
    · subst hz
      rw [getProp_setAll_not_mem _ _ _ (hd rfl).2,
        getProp_setProp_ne_key _ _ _ _ (hd rfl).1, hstep]
    · rw [getProp_setAll_ne_obj _ _ _ _ (fun e => hz e.symm),
        getProp_setProp_ne_obj _ _ _ _ (fun e => hz e.symm), hstep]
  · intro n dest al st p k hp hs hd
    simp only [RegisterToAliases]
    by_cases hz : dest = 0
    · subst hz
      rw [getProp_setAll_not_mem _ _ _ (hd rfl).2, getProp_setProp_ne_key _ _ _ _ (hd rfl).1]
    · rw [getProp_setAll_ne_obj _ _ _ _ (fun e => hz e.symm),
        getProp_setProp_ne_obj _ _ _ _ (fun e => hz e.symm)]
  · intro n dest al st p k hp hs hd
    simp only [RegisterToAliases]
    by_cases hz : dest = 0
    · subst hz
      rw [getProp_setAll_not_mem _ _ _ (hd rfl).2, getProp_setProp_ne_key _ _ _ _ (hd rfl).1]
    · rw [getProp_setAll_ne_obj _ _ _ _ (fun e => hz e.symm),
        getProp_setProp_ne_obj _ _ _ _ (fun e => hz e.symm)]
  · intro n dest al st v k hp hs hd
    simp only [RegisterToAliases]
    by_cases hz : dest = 0
    · subst hz
      rw [getProp_setAll_not_mem _ _ _ (hd rfl).2, getProp_setProp_ne_key _ _ _ _ (hd rfl).1]
    · rw [getProp_setAll_ne_obj _ _ _ _ (fun e => hz e.symm),
        getProp_setProp_ne_obj _ _ _ _ (fun e => hz e.symm)]
  · intro sid st k hp hz hs; simp [registerFields]
  · intro sid st fn ft fv rest
    dsimp only
    intro ih1 ih2 k hp hz hs
    simp only [fieldStructNames, List.mem_append, not_or] at hs
    simp only [registerFields]
    by_cases ho : (gettag ft fn).omitFlag = true
    · simp only [ho, if_true] at ih2 ⊢
      exact ih2 k hp hz hs.2
    · simp only [ho, if_false, Bool.false_eq_true] at ih2 hs ⊢
      rw [ih2 k (lt_of_lt_of_le hp (rta_mono _ _ _ _ _)) hz hs.2,
        ih1 k hp hs.1 (fun e => absurd e hz)]

/- ---------------------------------------------------------------------------
Evaluating `DeepGet` on one- and two-segment keys.
--------------------------------------------------------------------------- -/

lemma deepGet_one (key n : String) (root : Nat) (st : OttoState) (w : JSValue)
    (hsplit : goSplit key '.' = [n]) (h1 : getProp st root n = w) :
    DeepGet key root st = if w.isUndefined then .errUndefined n else .ok w := by
  unfold DeepGet
  rw [hsplit]
  cases w with
  | undefined => simp [deepGetLoop, h1, JSValue.isUndefined]
  | obj id => simp [deepGetLoop, h1, JSValue.isUndefined, JSValue.asObject, interfaceIsNil]
  | host v => simp [deepGetLoop, h1, JSValue.isUndefined, JSValue.asObject, interfaceIsNil]

lemma deepGet_two (key n m : String) (root sid : Nat) (st : OttoState) (w : JSValue)
    (hsplit : goSplit key '.' = [n, m]) (h1 : getProp st root n = .obj sid)
    (h2 : getProp st sid m = w) :
    DeepGet key root st = if w.isUndefined then .errUndefined m else .ok w := by
  unfold DeepGet
  rw [hsplit]
  cases w with
  | undefined => simp [deepGetLoop, h1, h2, JSValue.isUndefined, JSValue.asObject, interfaceIsNil]
  | obj id => simp [deepGetLoop, h1, h2, JSValue.isUndefined, JSValue.asObject, interfaceIsNil]
  | host v => simp [deepGetLoop, h1, h2, JSValue.isUndefined, JSValue.asObject, interfaceIsNil]

/- ---------------------------------------------------------------------------
Characterizing `gettag`.
--------------------------------------------------------------------------- -/

lemma foldl_alias (l : List String) (acc : List String) :
    l.foldl
        (fun as k =>
          if hasPrefixStr k "alias=" then as ++ [trimPrefixStr k "alias="] else as)
        acc
      = acc ++ l.filterMap aliasDirective := by
  induction l generalizing acc with
  | nil => simp
  | cons a rest ih =>
    by_cases h : hasPrefixStr a "alias=" = true
    · simp [List.foldl, h, ih, aliasDirective, List.filterMap_cons]
    · simp [List.foldl, h, ih, aliasDirective, List.filterMap_cons]

lemma data_length_zero {t : String} (h : t.data.length = 0) : t = "" := by
  cases t with
  | mk data =>
    cases data with
    | nil => rfl
    | cons c cs => simp at h

lemma gettag_of_empty (f : String) : gettag "" f = { name := f } := rfl

lemma gettag_of_dash (t f : String) (ht : t ≠ "")
    (hh : (goSplit t ',').headD "" = "-") :
    gettag t f = { name := f, omitFlag := true } := by
  have hd : ¬ t.data.length = 0 := fun h => ht (data_length_zero h)
  simp only [gettag, hd, if_false, hh, if_true]

lemma gettag_of_name (t f : String) (ht : t ≠ "")
    (hh : (goSplit t ',').headD "" ≠ "-") :
    gettag t f = { name := (goSplit t ',').headD "", omitFlag := false,
                   aliases := ((goSplit t ',').drop 1).filterMap aliasDirective } := by
  have hd : ¬ t.data.length = 0 := fun h => ht (data_length_zero h)
  simp only [gettag, hd, if_false, hh]
  by_cases hlen : (goSplit t ',').length = 1
  · have hdrop : (goSplit t ',').drop 1 = [] :=
      List.drop_eq_nil_of_le (le_of_eq hlen)
    simp [hlen, hdrop]
  · simp [hlen, foldl_alias]

/- ---------------------------------------------------------------------------
`DeepGet` never reaches the generic structural error, and a defined final
segment is returned as is.
--------------------------------------------------------------------------- -/

lemma deepGetLoop_ne_nilObject (st : OttoState) (keys : List String) :
    ∀ (cur : Option Nat) (v : JSValue), deepGetLoop st keys cur v ≠ .errNilObject := by
  induction keys with
  | nil => intro cur v h; simp [deepGetLoop] at h
  | cons k rest ih =>
    intro cur v h
    cases cur with
    | none => simp [deepGetLoop] at h
    | some id =>
      simp only [deepGetLoop] at h
      by_cases hu : (getProp st id k).isUndefined = true
      · simp [hu] at h
      · simp only [hu, if_false, Bool.false_eq_true, interfaceIsNil] at h
        exact ih _ _ h

lemma deepGetLoop_ok (st : OttoState) (segs : List String) (last : String) :
    ∀ (root pid : Nat) (v0 w : JSValue),
      resolveObjs st root segs = some pid → getProp st pid last = w → w ≠ .undefined →
      deepGetLoop st (segs ++ [last]) (some root) v0 = .ok w := by
  induction segs with
  | nil =>
    intro root pid v0 w h1 h2 hw
    simp only [resolveObjs, Option.some.injEq] at h1
    subst h1
    cases w with
    | undefined => exact absurd rfl hw
    | obj id => simp [deepGetLoop, h2, JSValue.isUndefined, JSValue.asObject, interfaceIsNil]
    | host v => simp [deepGetLoop, h2, JSValue.isUndefined, JSValue.asObject, interfaceIsNil]
  | cons k rest ih =>
    intro root pid v0 w h1 h2 hw
    cases hv : getProp st root k with
    | undefined => simp [resolveObjs, hv, JSValue.asObject] at h1
    | host v => simp [resolveObjs, hv, JSValue.asObject] at h1
    | obj id2 =>
      rw [resolveObjs] at h1
      rw [hv] at h1
      simp only [JSValue.asObject] at h1
      simp only [List.cons_append, deepGetLoop, hv, JSValue.isUndefined, if_false,
        Bool.false_eq_true, JSValue.asObject, interfaceIsNil]
      exact ih id2 pid _ w h1 h2 hw

/- ===========================================================================
The claims.
=========================================================================== -/

/-- C1, counterexample: the claim quantifies over every struct value, but
when a sibling field's directive reuses an omitted field's host name the
omitted-field lookup does not fail: after binding `c1example` under root
`top`, resolving `top.A` (omitted field `A`) succeeds with the sibling's
value instead of failing with the typed not-found error. -/
theorem c1_counterexample :
    DeepGet "top.A" 0 (Register "top" c1example ottoNew).1
        = .ok (.host (.leaf (.int 2))) ∧
    DeepGet "top.A" 0 (Register "top" c1example ottoNew).1
        ≠ .errUndefined "A" := by
  exact ⟨by decide, by decide⟩

/-- C1 (amended): binding a struct under a root name `n` creates a fresh
scripting-side object, walks the fields in declaration order and binds each
non-omitted field into it under its directive's exposed name; provided the
names written by the fields' directives are pairwise distinct and the
resolved field's kind is supported, resolving `n.<exposedName(f)>` with
`DeepGet` succeeds and yields that field's bound representation (the created
child object for a struct field, the bridge conversion of the field's value
otherwise); and resolving `n.<hostName(f)>` for an omitted field whose host
name no sibling directive writes fails with `ErrUndefined` carrying that
host name. -/
theorem c1_amended :
    (∀ (n : String) (fs : FieldList) (st : OttoState) (fn ft key : String) (fv : HostValue),
      0 < st.nextId →
      FieldList.mem fn ft fv fs →
      (allWrites fs).Nodup →
      (gettag ft fn).omitFlag = false →
      isUnsupportedK (indirect fv) = false →
      goSplit key '.' = [n, (gettag ft fn).name] →
      (isStructK (indirect fv) = true →
        ∃ i, DeepGet key 0 (Register n (.strct fs) st).1 = .ok (JSValue.obj i)) ∧
      (isStructK (indirect fv) = false →
        DeepGet key 0 (Register n (.strct fs) st).1 = .ok (.host fv))) ∧
    (∀ (n : String) (fs : FieldList) (st : OttoState) (fn ft key : String) (fv : HostValue),
      0 < st.nextId →
      FieldList.mem fn ft fv fs →
      (gettag ft fn).omitFlag = true →
      fn ∉ allWrites fs →
      goSplit key '.' = [n, fn] →
      DeepGet key 0 (Register n (.strct fs) st).1 = .errUndefined fn) := by
  have hst : ∀ (n : String) (fs : FieldList) (st : OttoState),
      (Register n (.strct fs) st).1
        = setProp (registerFields fs st.nextId (createObject st n).1) 0 n
            (.obj st.nextId) := by
    intro n fs st
    simp only [Register, RegisterTo, RegisterToAliases, createObject_sid, setAll_nil]
  constructor
  · intro n fs st fn ft key fv hpos hmem hnodup ho hsupp hkey
    have hsid0 : st.nextId ≠ 0 := Nat.pos_iff_ne_zero.mp hpos
    obtain ⟨w, hw, hwS, hwL⟩ := fields_get fs st.nextId (createObject st n).1 fn ft fv
      hsid0 (by simp only [createObject_nextId]; omega) hmem hnodup ho hsupp
    have h1 : getProp (Register n (.strct fs) st).1 0 n = .obj st.nextId := by
      rw [hst]; exact getProp_setProp_self _ _ _ _
    have h2 : getProp (Register n (.strct fs) st).1 st.nextId (gettag ft fn).name = w := by
      rw [hst, getProp_setProp_ne_obj _ _ _ _ hsid0]; exact hw
    have hdg := deepGet_two key n (gettag ft fn).name 0 st.nextId
      (Register n (.strct fs) st).1 w hkey h1 h2
    constructor
    · intro hS
      obtain ⟨i, hi⟩ := hwS hS
      subst hi
      exact ⟨i, by rw [hdg]; rfl⟩
    · intro hL
      have := hwL hL
      subst this
      rw [hdg]; rfl
  · intro n fs st fn ft key fv hpos hmem ho hnw hkey
    have hsid0 : st.nextId ≠ 0 := Nat.pos_iff_ne_zero.mp hpos
    have h1 : getProp (Register n (.strct fs) st).1 0 n = .obj st.nextId := by
      rw [hst]; exact getProp_setProp_self _ _ _ _
    have h2 : getProp (Register n (.strct fs) st).1 st.nextId fn = .undefined := by
      rw [hst, getProp_setProp_ne_obj _ _ _ _ hsid0,
        fields_destFrame _ _ _ _ hsid0 (by simp only [createObject_nextId]; omega) hnw,
        getProp_createObject_fresh _ _ _ hpos]
    have hdg := deepGet_two key n fn 0 st.nextId
      (Register n (.strct fs) st).1 .undefined hkey h1 h2
    rw [hdg]; rfl

/-- C1, witness for the amended theorem: binding `c1wstruct` under `top`,
`top.name` resolves to the `Name` field's value and `top.SkipMe` fails with
`ErrUndefined "SkipMe"`. -/
theorem c1_amended_witness :
    DeepGet "top.name" 0 (Register "top" c1wstruct ottoNew).1
        = .ok (.host (.leaf (.str "astro"))) ∧
    DeepGet "top.SkipMe" 0 (Register "top" c1wstruct ottoNew).1
        = .errUndefined "SkipMe" :=
  ⟨(c1_amended.1 "top"
      (.cons "Name" "name" (.leaf (.str "astro"))
        (.cons "SkipMe" "-" (.leaf (.bool true)) .nil))
      ottoNew "Name" "name" "top.name" (.leaf (.str "astro"))
      (by decide) (Or.inl ⟨rfl, rfl, rfl⟩) (by decide) (by decide) (by decide)
      (by decide)).2 (by decide),
   c1_amended.2 "top"
      (.cons "Name" "name" (.leaf (.str "astro"))
        (.cons "SkipMe" "-" (.leaf (.bool true)) .nil))
      ottoNew "SkipMe" "-" "top.SkipMe" (.leaf (.bool true))
      (by decide) (Or.inr (Or.inl ⟨rfl, rfl, rfl⟩)) (by decide) (by decide)
      (by decide)⟩

/-- C2, counterexample: the claim says the first unsupported-kind failure in
the recursion is returned from the outermost call, but the struct-scanning
loop discards the recursive call's error, so registering a struct with a
channel-kind field succeeds. -/
theorem c2_counterexample :
    (Register "x" c2example ottoNew).2 = none ∧
    (Register "x" c2example ottoNew).2 ≠ some RegErr.unsupportedKind := by
  exact ⟨by decide, by decide⟩

/-- C2 (amended): binding a value of an unsupported kind returns the
`unsupported kind` error and leaves the state untouched; but when such a
value occurs as a struct field the failure is silently discarded by the
field loop — the struct branch always reports success — and sibling fields
both before and after the failing field remain bound while the failing
field's name stays unset (illustrated on `c2example`). -/
theorem c2_amended :
    (∀ (n : String) (v : HostValue) (dest : Nat) (al : List String) (st : OttoState),
      isUnsupportedK (indirect v) = true →
      RegisterToAliases n v dest al st = (st, some RegErr.unsupportedKind)) ∧
    (∀ (n : String) (v : HostValue) (dest : Nat) (al : List String) (st : OttoState),
      isStructK (indirect v) = true →
      (RegisterToAliases n v dest al st).2 = none) ∧
    ((Register "x" c2example ottoNew).2 = none ∧
      DeepGet "x.A" 0 (Register "x" c2example ottoNew).1 = .ok (.host (.leaf (.int 1))) ∧
      DeepGet "x.C" 0 (Register "x" c2example ottoNew).1 = .ok (.host (.leaf (.int 2))) ∧
      DeepGet "x.B" 0 (Register "x" c2example ottoNew).1 = .errUndefined "B") := by
  refine ⟨fun n v dest al st h => rta_unsupported n v dest al st h, ?_, ?_⟩
  · intro n v dest al st h
    rw [rta_err]
    have hu : isUnsupportedK (indirect v) = false := by
      cases hi : indirect v <;> rw [hi] at h <;>
        simp [isStructK, isUnsupportedK] at h ⊢
    simp [hu]
  · exact ⟨by decide, by decide, by decide, by decide⟩

/-- C2, witness for the amended theorem: a top-level channel value errors
without touching the state, and a struct-kind value reports success. -/
theorem c2_amended_witness :
    RegisterToAliases "q" (.unsupported .chanKind) 0 [] ottoNew
        = (ottoNew, some RegErr.unsupportedKind) ∧
    (RegisterToAliases "s" (.strct .nil) 0 [] ottoNew).2 = none :=
  ⟨c2_amended.1 "q" (.unsupported .chanKind) 0 [] ottoNew (by decide),
   c2_amended.2.1 "s" (.strct .nil) 0 [] ottoNew (by decide)⟩

/-- C3 (code bug): on `c3state` (global `a` an object, `a.b` the primitive
`5`), the claim — and the source's own dead `nil object` guard — expect
resolution of `a.b.c` to fail at segment `b`; instead the guard never fires,
because `obj = v.Object()` stores a typed nil `*otto.Object` in a non-nil
interface, and the walk crashes with a nil-receiver panic while fetching
`c`. The two-segment lookup `a.b` still succeeds. -/
theorem c3_crash :
    DeepGet "a.b.c" 0 c3state = .crash ∧
    DeepGet "a.b" 0 c3state = .ok (.host (.leaf (.int 5))) := by
  exact ⟨by decide, by decide⟩

/-- C4: `DeepGet` raises its generic structural error only when further
segments remain — in fact the run never produces it at all — and when all
segments are consumed with the last fetched value defined, that value is
returned without error, even when it is a primitive with no children. -/
theorem c4_last_segment :
    (∀ (key : String) (root : Nat) (st : OttoState),
      DeepGet key root st ≠ .errNilObject) ∧
    (∀ (key last : String) (segs : List String) (root pid : Nat)
        (st : OttoState) (w : JSValue),
      goSplit key '.' = segs ++ [last] →
      resolveObjs st root segs = some pid →
      getProp st pid last = w → w ≠ .undefined →
      DeepGet key root st = .ok w) := by
  constructor
  · intro key root st
    exact deepGetLoop_ne_nilObject st (goSplit key '.') (some root) .undefined
  · intro key last segs root pid st w hkey h1 h2 hw
    unfold DeepGet
    rw [hkey]
    exact deepGetLoop_ok st segs last root pid .undefined w h1 h2 hw

/-- C4, witness: on `c4state` the final segment of `a.b` is the primitive
`5`, and `DeepGet` returns it without error. -/
theorem c4_last_segment_witness :
    DeepGet "a.b" 0 c4state = .ok (.host (.leaf (.int 5))) :=
  c4_last_segment.2 "a.b" "b" ["a"] 0 1 c4state (.host (.leaf (.int 5)))
    (by decide) (by decide) (by decide) (by decide)

/-- C5, counterexample: the claim quantifies over every name, but a name
containing a dot does not round-trip: `DeepGet` splits it into segments, so
the value bound under the literal name `a.b` is not found. -/
theorem c5_counterexample :
    DeepGet "a.b" 0 (Register "a.b" (.leaf (.int 7)) ottoNew).1
        = .errUndefined "a" ∧
    DeepGet "a.b" 0 (Register "a.b" (.leaf (.int 7)) ottoNew).1
        ≠ .ok (.host (.leaf (.int 7))) := by
  exact ⟨by decide, by decide⟩

/-- C5 (amended): for every dot-free name `n` and every host value of a
supported non-struct kind (primitives, functions, bridge-native data),
binding the value under `n` and then resolving the single-segment key `n`
with `DeepGet` yields exactly the bound value. -/
theorem c5_amended (n : String) (v : HostValue) (st : OttoState)
    (hdot : goSplit n '.' = [n])
    (hsupp : isUnsupportedK (indirect v) = false)
    (hstr : isStructK (indirect v) = false) :
    DeepGet n 0 (Register n v st).1 = .ok (.host v) := by
  obtain ⟨w, hw1, _, _, hwL⟩ := rta_set_values n v 0 [] st hsupp
  have hwv : w = .host v := hwL hstr
  subst hwv
  rw [deepGet_one n n 0 (Register n v st).1 (.host v) hdot hw1]
  rfl

/-- C5, witness: the string `world` bound under `hello` reads back. -/
theorem c5_amended_witness :
    DeepGet "hello" 0 (Register "hello" (.leaf (.str "world")) ottoNew).1
        = .ok (.host (.leaf (.str "world"))) :=
  c5_amended "hello" (.leaf (.str "world")) ottoNew (by decide) (by decide) (by decide)

/-- C6: the tag parser is a pure total Lean function; the empty tag yields
the fallback name with no omission and no aliases; a first comma-token `-`
yields omission with empty aliases; otherwise the first token becomes the
exposed name with no omission, and the aliases are exactly the `alias=NAME`
payloads of the remaining tokens in input order — every other token
(including reserved keywords) is ignored and never alters the directive. -/
theorem c6_gettag :
    (∀ f : String, gettag "" f = { name := f, omitFlag := false, aliases := [] }) ∧
    (∀ t f : String, t ≠ "" → (goSplit t ',').headD "" = "-" →
      (gettag t f).omitFlag = true ∧ (gettag t f).aliases = []) ∧
    (∀ t f : String, t ≠ "" → (goSplit t ',').headD "" ≠ "-" →
      (gettag t f).name = (goSplit t ',').headD "" ∧ (gettag t f).omitFlag = false) ∧
    (∀ t f : String, t ≠ "" → (goSplit t ',').headD "" ≠ "-" →
      (gettag t f).aliases = ((goSplit t ',').drop 1).filterMap aliasDirective) := by
  refine ⟨fun f => rfl, ?_, ?_, ?_⟩
  · intro t f ht hh; rw [gettag_of_dash t f ht hh]; exact ⟨rfl, rfl⟩
  · intro t f ht hh; rw [gettag_of_name t f ht hh]; exact ⟨rfl, rfl⟩
  · intro t f ht hh; rw [gettag_of_name t f ht hh]

/-- C6, witness: the four behaviours at concrete tags, including a reserved
`omitempty` token that is ignored. -/
theorem c6_gettag_witness :
    gettag "" "NoTag" = { name := "NoTag", omitFlag := false, aliases := [] } ∧
    ((gettag "-" "SkipMe").omitFlag = true ∧ (gettag "-" "SkipMe").aliases = []) ∧
    ((gettag "kubernetes,alias=k8s,omitempty" "K").name
        = (goSplit "kubernetes,alias=k8s,omitempty" ',').headD ""
      ∧ (gettag "kubernetes,alias=k8s,omitempty" "K").omitFlag = false) ∧
    (gettag "kubernetes,alias=k8s,omitempty" "K").aliases
        = ((goSplit "kubernetes,alias=k8s,omitempty" ',').drop 1).filterMap aliasDirective :=
  ⟨c6_gettag.1 "NoTag",
   c6_gettag.2.1 "-" "SkipMe" (by decide) (by decide),
   c6_gettag.2.2.1 "kubernetes,alias=k8s,omitempty" "K" (by decide) (by decide),
   c6_gettag.2.2.2 "kubernetes,alias=k8s,omitempty" "K" (by decide) (by decide)⟩

/-- C7, counterexample: the tag `,` (empty first token) produces a directive
with an empty exposed name and `omit` false, violating the claimed invariant
that the exposed name is non-empty unless `omit` is true. -/
theorem c7_counterexample :
    (gettag "," "Field").omitFlag = false ∧ (gettag "," "Field").name = "" := by
  exact ⟨by decide, by decide⟩

/-- C7 (amended): provided the tag's primary token is non-empty (and the
fallback field name is non-empty when the tag is absent), the directive
satisfies the invariants: the exposed name is non-empty unless `omit` is
true; `omit` is true iff the primary token is the sentinel `-`; and the
aliases are empty unless an explicit `alias=` token is present. -/
theorem c7_amended (t f : String)
    (hf : t = "" → f ≠ "")
    (hp : t ≠ "" → (goSplit t ',').headD "" ≠ "") :
    ((gettag t f).omitFlag = false → (gettag t f).name ≠ "") ∧
    ((gettag t f).omitFlag = true ↔ (goSplit t ',').headD "" = "-") ∧
    ((gettag t f).aliases ≠ [] →
      ∃ k ∈ (goSplit t ',').drop 1, hasPrefixStr k "alias=" = true) := by
  by_cases ht : t = ""
  · subst ht
    refine ⟨fun _ => hf rfl, ?_, ?_⟩
    · rw [gettag_of_empty]
      constructor
      · intro h; simp at h
      · intro h; exact absurd h (by decide)
    · rw [gettag_of_empty]
      intro h; exact absurd rfl h
  · by_cases hh : (goSplit t ',').headD "" = "-"
    · rw [gettag_of_dash t f ht hh]
      refine ⟨?_, ?_, ?_⟩
      · intro h; simp at h
      · exact ⟨fun _ => hh, fun _ => rfl⟩
      · intro h; exact absurd rfl h
    · rw [gettag_of_name t f ht hh]
      refine ⟨?_, ?_, ?_⟩
      · intro _; exact hp ht
      · constructor
        · intro h; simp at h
        · intro h; exact absurd h hh
      · intro h
        by_contra hc
        push_neg at hc
        apply h
        rw [List.filterMap_eq_nil_iff]
        intro a ha
        have hna := hc a ha
        simp [aliasDirective, hna]


/-- C7, witness for the amended theorem: a well-formed tag yields a
non-empty exposed name, and the sentinel tag `-` yields omission. -/
theorem c7_amended_witness :
    (gettag "kubernetes,alias=k8s" "K").name ≠ "" ∧
    (gettag "-" "SkipMe").omitFlag = true :=
  ⟨(c7_amended "kubernetes,alias=k8s" "K" (by decide) (by decide)).1 (by decide),
   (c7_amended "-" "SkipMe" (by decide) (by decide)).2.1.mpr (by decide)⟩

/-- C8: a binding call sets the destination's property once for the primary
name and once per alias, all of them holding the identical bound target: for
a struct kind, the single object created by this call; for every other
supported kind, the bridge conversion of the value itself — aliases are
views onto one binding, not independent copies. -/
theorem c8_aliases (n : String) (v : HostValue) (dest : Nat) (al : List String)
    (st : OttoState) (hsupp : isUnsupportedK (indirect v) = false) :
    (∀ a ∈ al, getProp ((RegisterToAliases n v dest al st).1) dest a
        = getProp ((RegisterToAliases n v dest al st).1) dest n) ∧
    (isStructK (indirect v) = true →
      getProp ((RegisterToAliases n v dest al st).1) dest n = .obj st.nextId) ∧
    (isStructK (indirect v) = false →
      getProp ((RegisterToAliases n v dest al st).1) dest n = .host v) := by
  obtain ⟨w, hw1, hal, hwS, hwL⟩ := rta_set_values n v dest al st hsupp
  refine ⟨fun a ha => (hal a ha).trans hw1.symm, ?_, ?_⟩
  · intro h; rw [hw1, hwS h]
  · intro h; rw [hw1, hwL h]

/-- C8, witness: a struct bound on object 1 under `kubernetes` with alias
`k8s` is readable under both names as the same created object. -/
theorem c8_aliases_witness :
    getProp ((RegisterToAliases "kubernetes" (.strct .nil) 1 ["k8s"] c8state).1) 1 "k8s"
        = getProp ((RegisterToAliases "kubernetes" (.strct .nil) 1 ["k8s"] c8state).1)
            1 "kubernetes" ∧
    getProp ((RegisterToAliases "kubernetes" (.strct .nil) 1 ["k8s"] c8state).1)
        1 "kubernetes" = .obj c8state.nextId :=
  ⟨(c8_aliases "kubernetes" (.strct .nil) 1 ["k8s"] c8state (by decide)).1 "k8s"
      (by decide),
   (c8_aliases "kubernetes" (.strct .nil) 1 ["k8s"] c8state (by decide)).2.1 (by decide)⟩

/-- C9, counterexample: binding `c9example` to the non-global destination
object 1 nevertheless creates the global variables `top` and `inner` — the
bridge's create-object call evaluates an assignment script in the global
scope for every struct node — contradicting the claim that no global state
other than the destination's properties changes. -/
theorem c9_counterexample :
    getProp c9state 0 "inner" = .undefined ∧
    getProp c9state 0 "top" = .undefined ∧
    getProp ((RegisterToAliases "top" c9example 1 [] c9state).1) 0 "inner" = .obj 3 ∧
    getProp ((RegisterToAliases "top" c9example 1 [] c9state).1) 0 "top" = .obj 2 := by
  exact ⟨by decide, by decide, by decide, by decide⟩

/-- C9 (amended): a binding call's side effects are confined to the
destination object, newly created objects, and — because the bridge's
create-object call evaluates an assignment script at global scope — the
global variables named by the working names of the struct nodes it walks:
every other allocated object is untouched, and every other global variable
(beyond the destination's own properties when the destination is the
runtime itself) is unchanged. -/
theorem c9_amended (n : String) (v : HostValue) (dest : Nat) (al : List String)
    (st : OttoState) (hpos : 0 < st.nextId) :
    (∀ id, id ≠ 0 → id ≠ dest → id < st.nextId →
      ∀ k, getProp ((RegisterToAliases n v dest al st).1) id k = getProp st id k) ∧
    (∀ k, k ∉ structNames n v → (dest = 0 → (k ≠ n ∧ k ∉ al)) →
      getProp ((RegisterToAliases n v dest al st).1) 0 k = getProp st 0 k) :=
  ⟨rta_otherFrame n v dest al st,
   fun k hs hd => rta_globalFrame n v dest al st k hpos hs hd⟩

/-- C9, witness: binding `c9example` to object 1 leaves the unrelated global
`other` unchanged. -/
theorem c9_amended_witness :
    getProp ((RegisterToAliases "top" c9example 1 [] c9state).1) 0 "other"
        = getProp c9state 0 "other" :=
  (c9_amended "top" c9example 1 [] c9state (by decide)).2 "other"
    (by decide) (by decide)

/-- C10: the wrapper entry points only fix default arguments — `Register`
binds to the runtime's root namespace with no aliases, `RegisterTo` binds to
the given object with no aliases; both coincide with `RegisterToAliases`. -/
theorem c10_wrappers :
    (∀ (n : String) (v : HostValue) (st : OttoState),
      Register n v st = RegisterToAliases n v 0 [] st) ∧
    (∀ (n : String) (v : HostValue) (dest : Nat) (st : OttoState),
      RegisterTo n v dest st = RegisterToAliases n v dest [] st) :=
  ⟨fun _ _ _ => rfl, fun _ _ _ _ => rfl⟩

end Ottomatic
